import Mathlib

/-!
Verification of the encrypted-messaging core of the gosty repository.

The development shallowly embeds the parts of the code that the checked
properties are about:

* `Gosty.Crypto` — the hybrid crypto codec of `src/services/cryptoService.ts`
  (RSA-OAEP key wrapping + AES-GCM payload encryption), with the Web Crypto
  primitives modelled symbolically: an idealized cipher value remembers the
  key it was produced under, and decryption succeeds exactly when the same
  key is supplied.  This is the standard symbolic treatment of an external
  cryptography library; the codec's own control flow (the insecure-context
  fallback, the mock-marker dispatch, the try/catch that degrades to a
  placeholder string) is translated line by line.
* `Gosty.Messages` — the direct-message store and its lifecycle routes of
  `src/server/routes/messageRoutes.js` (edit, unsend, delete-for-me, fetch),
  with the Mongo collection modelled as a list of records and the used
  query operators (`findById`, `updateOne` with `\x7b $set \x7d` /
  `\x7b $addToSet \x7d`, `find` + `sort`) given their documented semantics.
* `Gosty.Groups` — the group / membership state machine of
  `src/server/routes/groupRoutes.js` (create, add, remove, promote, demote,
  leave, edit) together with the counter recomputation and the
  conversation-summary unread count.
* `Gosty.Sockets` — the presence registry and the client-initiated room
  join/leave handlers of `src/server/socketManager.js`.
-/

namespace Gosty

namespace Crypto

/-- Symbolic model of the base64 strings the codec passes around
(`src/services/cryptoService.ts`).  Each constructor stands for one shape of
string the code can produce or receive: an AES-GCM ciphertext (which, in the
idealized cipher, remembers the session key, the nonce and the plaintext it
was built from), an RSA-OAEP wrapping of a raw session key under a public
key, an exported IV, the mock payload `[[INSECURE::…]]` produced by the
degraded path, or any other (malformed) string. -/
inductive B64 where
  | aes (key : Nat) (nonce : Nat) (plain : String)
  | rsa (pub : Nat) (rawKey : Nat)
  | ivBytes (nonce : Nat)
  | insecureMock (plain : String)
  | junk (s : String)
  deriving DecidableEq, Repr

/-- A public key as published in the directory: either a real exported
RSA-2048 key (identified by the keypair seed) or the `INSECURE_PUB_…` dummy
produced when Web Crypto is unavailable. -/
inductive PubKeyPem where
  | real (n : Nat)
  | insecure
  deriving DecidableEq, Repr

/-- The `startsWith "INSECURE_"` test of `encryptMessage`. -/
def PubKeyPem.isDummy : PubKeyPem → Bool
  | .real _ => false
  | .insecure => true

/-- A private key handle: the real half of keypair `n`, or the dummy object
with `algorithm.name = "INSECURE"` used in degraded mode (any real RSA
operation on it throws, i.e. fails symbolically). -/
inductive PrivKey where
  | real (n : Nat)
  | insecure
  deriving DecidableEq, Repr

/-- Result of `generateKeyPair`. -/
structure GeneratedPair where
  publicKey : PubKeyPem
  privateKey : PrivKey
  deriving DecidableEq, Repr

/-- Translation of `generateKeyPair`: with crypto support, a fresh RSA-OAEP
keypair (both halves identified by the same seed, so that unwrapping under
the private half succeeds exactly for data wrapped under the public half);
without support, the clearly tagged insecure dummies. -/
def generateKeyPair (support : Bool) (seed : Nat) : GeneratedPair :=
  if support then ⟨.real seed, .real seed⟩ else ⟨.insecure, .insecure⟩

/-- The quadruple returned by `encryptMessage`. -/
structure EncryptedPayload where
  encryptedContent : B64
  iv : B64
  encryptedKeyForReceiver : B64
  encryptedKeyForSender : B64
  deriving DecidableEq, Repr

/-- The mock payload produced by the insecure branch of `encryptMessage`. -/
def insecurePayload (text : String) : EncryptedPayload :=
  { encryptedContent := B64.insecureMock text
    iv := B64.junk "INSECURE_IV"
    encryptedKeyForReceiver := B64.junk "INSECURE_KEY"
    encryptedKeyForSender := B64.junk "INSECURE_KEY" }

/-- Translation of `encryptMessage`.  The freshly generated AES-256 session
key and the fresh 12-byte nonce are explicit parameters (the source draws
them from the platform RNG).  If crypto is unsupported or either public key
is an insecure dummy, the mock payload is returned; otherwise the plaintext
is AES-GCM encrypted under the session key and the raw session key is
RSA-OAEP wrapped once under the receiver's and once under the sender's
public key. -/
def encryptMessage (support : Bool) (text : String)
    (receiverPublicKeyPem senderPublicKeyPem : PubKeyPem)
    (sessionKey nonce : Nat) : EncryptedPayload :=
  if !support || receiverPublicKeyPem.isDummy || senderPublicKeyPem.isDummy then
    insecurePayload text
  else
    match receiverPublicKeyPem, senderPublicKeyPem with
    | .real rn, .real sn =>
        { encryptedContent := B64.aes sessionKey nonce text
          iv := B64.ivBytes nonce
          encryptedKeyForReceiver := B64.rsa rn sessionKey
          encryptedKeyForSender := B64.rsa sn sessionKey }
    | _, _ => insecurePayload text

/-- Symbolic RSA-OAEP decryption: unwrapping succeeds exactly when the
supplied private key matches the public key the data was wrapped under;
a dummy private key or a non-RSA blob makes `crypto.subtle.decrypt` throw,
modelled as `none`. -/
def rsaOaepDecrypt (priv : PrivKey) : B64 → Option Nat
  | .rsa pub k =>
      match priv with
      | .real n => if pub = n then some k else none
      | .insecure => none
  | _ => none

/-- Symbolic AES-GCM decryption: authenticated decryption succeeds exactly
when both the session key and the IV match the ones used at encryption
time; anything else throws, modelled as `none`. -/
def aesGcmDecrypt (key : Nat) (ivb ct : B64) : Option String :=
  match ivb, ct with
  | .ivBytes nonce, .aes k n t => if k = key ∧ n = nonce then some t else none
  | _, _ => none

/-- The body of the `try` block of `decryptMessage`: unwrap the session key
with the private key, import it, and decrypt the content.  Any step may
throw; the thrown-or-value outcome is the `Option`. -/
def decryptCore (enc ivb key : B64) (priv : PrivKey) : Option String := do
  let raw ← rsaOaepDecrypt priv key
  aesGcmDecrypt raw ivb enc

/-- Translation of `decryptMessage`: first the `[[INSECURE::…]]` mock marker
is handled (base64-decoding the embedded plaintext), then the
insecure-context guard, then the real path whose `catch` turns any failure
into the `[[DECRYPTION FAILED: INVALID KEY]]` placeholder. -/
def decryptMessage (support : Bool) (enc ivb key : B64) (priv : PrivKey) : String :=
  match enc with
  | .insecureMock t => t
  | _ =>
      if !support then "[[DECRYPTION FAILED: INSECURE CONTEXT]]"
      else (decryptCore enc ivb key priv).getD "[[DECRYPTION FAILED: INVALID KEY]]"

end Crypto

/-- Realtime emission performed by a route: either a targeted push to one
user's socket (`io.to(socketId).emit(event, …)` after a `getSocketId`
lookup) or a room broadcast (`io.to(roomForGroup(groupId)).emit(event, …)`). -/
inductive Evt where
  | toSocket (socketId : String) (event : String)
  | toRoom (groupId : Nat) (event : String)
  deriving DecidableEq, Repr

/-- Outcome of an Express route handler: a success value, or an error
response with its HTTP status code and message. -/
inductive RouteResult (α : Type) where
  | ok (value : α)
  | err (status : Nat) (message : String)
  deriving DecidableEq, Repr

/-- True when the route answered with an error status. -/
def RouteResult.isErr : RouteResult α → Bool
  | .ok _ => false
  | .err _ _ => true

/-- Replace the first element satisfying `p` by its image under `f`,
leaving everything else in place.  This is the effect of mongoose's
`findOne(query)` followed by mutating and `save()`-ing the returned
document. -/
def updateFirst (p : α → Bool) (f : α → α) : List α → List α
  | [] => []
  | x :: xs => if p x then f x :: xs else x :: updateFirst p f xs

namespace Messages

/-- Value of the `conversationType` enum of `src/server/models/Message.js`. -/
inductive ConvType where
  | direct
  | group
  deriving DecidableEq, Repr

/-- Value of the `messageType` enum of `src/server/models/Message.js`. -/
inductive MsgType where
  | user
  | system
  deriving DecidableEq, Repr

/-- A document of the polymorphic `Message` collection
(`src/server/models/Message.js`).  Optional/conditionally-required fields
are `Option`s or carry the schema's defaults; `createdAt` is the
`timestamps: true` creation instant, modelled as a `Nat` tick. -/
structure Msg where
  id : Nat
  conversationType : ConvType := .direct
  messageType : MsgType := .user
  groupId : Option Nat := none
  senderId : Nat
  receiverId : Option Nat := none
  replyTo : Option Nat := none
  content : String := ""
  systemAction : Option String := none
  encryptedContent : String := ""
  iv : String := ""
  encryptedKeyForReceiver : String := ""
  encryptedKeyForSender : String := ""
  isRead : Bool := false
  isEdited : Bool := false
  editedAt : Option Nat := none
  deletedFor : List Nat := []
  isUnsent : Bool := false
  createdAt : Nat := 0
  deriving DecidableEq, Repr

/-- `Message.findById(id)` over the collection modelled as a list. -/
def findById (db : List Msg) (i : Nat) : Option Msg :=
  db.find? (fun m => m.id == i)

/-- `Message.updateOne(\x7b _id \x7d, …)` / `message.save()`: rewrite the
document with the given id, leaving every other document untouched. -/
def updateById (db : List Msg) (i : Nat) (f : Msg → Msg) : List Msg :=
  db.map (fun m => if m.id == i then f m else m)

/-- An `io.to(getSocketId(uid)).emit(event, …)` push: emitted only when the
user currently has a registered socket. -/
def emitTo (sock : Nat → Option String) (uid : Option Nat) (event : String) : List Evt :=
  match uid.bind sock with
  | some sid => [Evt.toSocket sid event]
  | none => []

/-- The pair of `message_updated` pushes of the direct edit/unsend routes:
first to the receiver's socket, then to the sender's, each only if
connected. -/
def emitBothParties (sock : Nat → Option String) (m : Msg) (event : String) : List Evt :=
  emitTo sock m.receiverId event ++ emitTo sock (some m.senderId) event

/-- Translation of `PUT /api/messages/:id/edit`
(`src/server/routes/messageRoutes.js` lines 182–242).  JS falsiness of a
missing or empty body field is modelled by comparing with the empty
string. -/
def editDirect (sock : Nat → Option String) (db : List Msg) (actor msgId : Nat)
    (encryptedContent iv keyForReceiver keyForSender : String) (now : Nat) :
    RouteResult (List Msg × List Evt) :=
  match findById db msgId with
  | none => .err 404 "Message not found"
  | some m =>
      if m.conversationType ≠ ConvType.direct then
        .err 400 "Use group message endpoints for group chat messages"
      else if m.senderId ≠ actor then
        .err 401 "Not authorized"
      else if encryptedContent = "" ∨ iv = "" ∨ keyForReceiver = "" ∨ keyForSender = "" then
        .err 400 "Missing encrypted edit payload fields"
      else
        .ok (updateById db msgId (fun x =>
              { x with
                encryptedContent := encryptedContent
                iv := iv
                encryptedKeyForReceiver := keyForReceiver
                encryptedKeyForSender := keyForSender
                isEdited := true
                editedAt := some now }),
             emitBothParties sock m "message_updated")

/-- Translation of `PUT /api/messages/:id/unsend`
(`src/server/routes/messageRoutes.js` lines 280–328): only the sender may
unsend; on success `isUnsent` is set and `encryptedContent` cleared, and a
`message_updated` push goes to both parties' sockets. -/
def unsendDirect (sock : Nat → Option String) (db : List Msg) (actor msgId : Nat) :
    RouteResult (List Msg × List Evt) :=
  match findById db msgId with
  | none => .err 404 "Message not found"
  | some m =>
      if m.conversationType ≠ ConvType.direct then
        .err 400 "Use group message endpoints for group chat messages"
      else if m.senderId ≠ actor then
        .err 401 "Not authorized"
      else
        .ok (updateById db msgId (fun x => { x with isUnsent := true, encryptedContent := "" }),
             emitBothParties sock m "message_updated")

/-- Translation of `PUT /api/messages/:id/delete`
(`src/server/routes/messageRoutes.js` lines 247–275): any participant; the
`$addToSet` adds the actor to `deletedFor` only if not already present.
The route performs no realtime emission, so the event list is empty. -/
def deleteForMeDirect (db : List Msg) (actor msgId : Nat) :
    RouteResult (List Msg × List Evt) :=
  match findById db msgId with
  | none => .err 404 "Message not found"
  | some m =>
      if m.conversationType ≠ ConvType.direct then
        .err 400 "Use group message endpoints for group chat messages"
      else if m.senderId ≠ actor ∧ m.receiverId ≠ some actor then
        .err 401 "Not authorized"
      else
        .ok (updateById db msgId (fun x =>
              { x with deletedFor :=
                  if actor ∈ x.deletedFor then x.deletedFor else x.deletedFor ++ [actor] }),
             ([] : List Evt))

/-- The filter of `GET /api/messages/:otherUserId`: direct messages between
the two participants that the viewer has not locally deleted. -/
def directVisible (viewer otherUser : Nat) (m : Msg) : Bool :=
  m.conversationType == ConvType.direct &&
  ((m.senderId == viewer && m.receiverId == some otherUser) ||
   (m.senderId == otherUser && m.receiverId == some viewer)) &&
  !(decide (viewer ∈ m.deletedFor))

/-- Translation of `GET /api/messages/:otherUserId`
(`src/server/routes/messageRoutes.js` lines 67–86): the visible messages of
the conversation, sorted ascending by `createdAt`. -/
def getDirectMessages (db : List Msg) (viewer otherUser : Nat) : List Msg :=
  List.insertionSort (fun a b => a.createdAt ≤ b.createdAt)
    (db.filter (directVisible viewer otherUser))

end Messages

namespace Groups

/-- Value of the `role` enum of the `GroupMember` collection. -/
inductive Role where
  | member
  | admin
  deriving DecidableEq, Repr

/-- Value of the `status` enum of the `GroupMember` collection. -/
inductive MemberStatus where
  | active
  | left
  | removed
  deriving DecidableEq, Repr

/-- A document of the `GroupMember` collection: the per (group, user)
role/status record the routes of `src/server/routes/groupRoutes.js` read
and write. -/
structure Membership where
  groupId : Nat
  userId : Nat
  role : Role := .member
  status : MemberStatus := .active
  joinedAt : Option Nat := none
  leftAt : Option Nat := none
  removedAt : Option Nat := none
  addedBy : Option Nat := none
  removedBy : Option Nat := none
  lastReadAt : Option Nat := none
  deriving DecidableEq, Repr

/-- A document of the `Group` collection: name plus the denormalized
summary fields (`memberCount`, `adminCount`, last-message data). -/
structure GroupRec where
  id : Nat
  name : String
  creatorId : Nat
  memberCount : Nat := 1
  adminCount : Nat := 1
  lastMessageAt : Option Nat := none
  lastMessagePreview : String := ""
  createdAt : Nat := 0
  deriving DecidableEq, Repr

/-- The persistent state the group routes act on: the `Group`,
`GroupMember` and `Message` collections. -/
structure GState where
  groups : List GroupRec
  members : List Membership
  msgs : List Messages.Msg
  deriving DecidableEq, Repr

/-- Membership predicate used throughout the routes:
`\x7b groupId, userId, status: 'active' \x7d`. -/
def isActivePair (g u : Nat) (m : Membership) : Bool :=
  m.groupId == g && m.userId == u && m.status == MemberStatus.active

/-- `GroupMember.findOne(\x7b groupId, userId, status: 'active' \x7d)`
(`getActiveMembership` of `src/server/routes/groupRoutes.js`). -/
def findActive (ms : List Membership) (g u : Nat) : Option Membership :=
  ms.find? (isActivePair g u)

/-- `GroupMember.findOne(\x7b groupId, userId \x7d)` — any status — as used
by the add-members route. -/
def findAny (ms : List Membership) (g u : Nat) : Option Membership :=
  ms.find? (fun m => m.groupId == g && m.userId == u)

/-- `GroupMember.countDocuments(\x7b groupId, status: 'active' \x7d)`. -/
def countActive (ms : List Membership) (g : Nat) : Nat :=
  ms.countP (fun m => m.groupId == g && m.status == MemberStatus.active)

/-- `GroupMember.countDocuments(\x7b groupId, status: 'active',
role: 'admin' \x7d)`. -/
def countActiveAdmins (ms : List Membership) (g : Nat) : Nat :=
  ms.countP (fun m =>
    m.groupId == g && m.status == MemberStatus.active && m.role == Role.admin)

/-- Number of `GroupMember` documents for one (group, user) pair. -/
def pairCount (ms : List Membership) (g u : Nat) : Nat :=
  ms.countP (fun m => m.groupId == g && m.userId == u)

/-- `touchGroupLastMessage` of `src/server/routes/groupRoutes.js`: stamp
the group's `lastMessageAt`/`lastMessagePreview`. -/
def touchGroupLastMessage (gs : List GroupRec) (g : Nat) (preview : String) (now : Nat) :
    List GroupRec :=
  gs.map (fun x => if x.id == g then
    { x with lastMessageAt := some now, lastMessagePreview := preview } else x)

/-- `updateGroupCounters` of `src/server/routes/groupRoutes.js`: recompute
both denormalized counters from a live scan of the membership store. -/
def updateGroupCounters (gs : List GroupRec) (ms : List Membership) (g : Nat) :
    List GroupRec :=
  gs.map (fun x => if x.id == g then
    { x with memberCount := countActive ms g, adminCount := countActiveAdmins ms g } else x)

/-- Fresh id supplied for a newly created `Message` document (Mongo
generates ObjectIds; the model uses the successor of the largest id in
use). -/
def nextMsgId (msgs : List Messages.Msg) : Nat :=
  msgs.foldr (fun m acc => max (m.id + 1) acc) 0

/-- `createSystemMessage` of `src/server/routes/groupRoutes.js`: append a
system `Message` carrying the structured action, then stamp the group's
last-message fields.  The human-readable `content` string is display text
only. -/
def createSystemMessage (st : GState) (g actorId : Nat) (action content : String)
    (now : Nat) : GState :=
  let msg : Messages.Msg :=
    { id := nextMsgId st.msgs
      conversationType := .group
      messageType := .system
      groupId := some g
      senderId := actorId
      content := content
      systemAction := some action
      createdAt := now }
  { st with
      msgs := st.msgs ++ [msg]
      groups := touchGroupLastMessage st.groups g content now }

/-- The membership document inserted for each listed user at group
creation: active, admin exactly for the creator. -/
def newGroupMember (g actor now uid : Nat) : Membership :=
  { groupId := g, userId := uid
    role := if uid = actor then Role.admin else Role.member
    status := .active, addedBy := some actor
    joinedAt := some now, lastReadAt := some now }

/-- Translation of `POST /api/groups` (create group,
`src/server/routes/groupRoutes.js` lines 114–174).  `gid` is the ObjectId
Mongo assigns to the new group; `Array.from(new Set(…))` is modelled by
`List.dedup`.  The creator becomes the sole active admin, every other
listed member an active member, and the initial counters are written as
`allMemberIds.length` and `1`.  Socket room joins and pushes are omitted
(they do not touch the stores). -/
def createGroup (st : GState) (actor gid : Nat) (name : String) (memberIds : List Nat)
    (now : Nat) : RouteResult GState :=
  if name.trim = "" then .err 400 "Group name is required"
  else
    let allIds := (actor :: memberIds).dedup
    let g : GroupRec :=
      { id := gid, name := name.trim, creatorId := actor
        memberCount := allIds.length, adminCount := 1, createdAt := now }
    let newMems := allIds.map (newGroupMember gid actor now)
    let st' : GState :=
      { groups := st.groups ++ [g], members := st.members ++ newMems, msgs := st.msgs }
    .ok (createSystemMessage st' gid actor "user_added" "created the group" now)

/-- Reactivation performed by the add-members route on an existing
non-active membership document: back to active member, stamped by the
actor, with the leave/removal tombstone fields cleared. -/
def reactivate (actor now : Nat) (m : Membership) : Membership :=
  { m with
      status := .active
      role := .member
      addedBy := some actor
      joinedAt := some now
      leftAt := none
      removedAt := none
      removedBy := none
      lastReadAt := some now }

/-- One iteration of the add-members loop for a single user id: skip an
already-active member, reactivate an existing left/removed document, or
create a fresh one; each added user gets a `user_added` system message. -/
def addOne (actor g now : Nat) (st : GState) (uid : Nat) : GState :=
  match findAny st.members g uid with
  | some e =>
      if e.status = MemberStatus.active then st
      else
        let ms' := updateFirst (fun m => m.groupId == g && m.userId == uid)
          (reactivate actor now) st.members
        createSystemMessage { st with members := ms' } g actor "user_added" "added a user" now
  | none =>
      let newMem : Membership :=
        { groupId := g, userId := uid, role := .member, status := .active
          addedBy := some actor, joinedAt := some now, lastReadAt := some now }
      createSystemMessage { st with members := st.members ++ [newMem] }
        g actor "user_added" "added a user" now

/-- Translation of `PUT /api/groups/:groupId/members/add`
(`src/server/routes/groupRoutes.js` lines 319–401): admin only; the
deduplicated id list minus the actor is processed one by one, and the
counters are recomputed once at the end. -/
def addMembers (st : GState) (actor g : Nat) (userIds : List Nat) (now : Nat) :
    RouteResult GState :=
  match findActive st.members g actor with
  | none => .err 403 "Only active members can perform this action"
  | some a =>
      if a.role ≠ Role.admin then .err 403 "Only admins can perform this action"
      else
        let allIds := userIds.dedup.filter (fun u => u ≠ actor)
        if allIds.isEmpty then .err 400 "No valid members to add"
        else
          let st' := allIds.foldl (addOne actor g now) st
          .ok { st' with groups := updateGroupCounters st'.groups st'.members g }

/-- Translation of `PUT /api/groups/:groupId/members/remove`
(`src/server/routes/groupRoutes.js` lines 404–453): admin only, never on
oneself; the target's document is tombstoned as removed. -/
def removeMember (st : GState) (actor g target now : Nat) : RouteResult GState :=
  match findActive st.members g actor with
  | none => .err 403 "Only active members can perform this action"
  | some a =>
      if a.role ≠ Role.admin then .err 403 "Only admins can perform this action"
      else if target = actor then .err 400 "Use leave endpoint for your own account"
      else
        match findActive st.members g target with
        | none => .err 404 "Active member not found"
        | some _ =>
            let ms' := updateFirst (isActivePair g target)
              (fun m => { m with
                  status := .removed, role := .member
                  removedAt := some now, removedBy := some actor }) st.members
            let st' := { st with members := ms'
                                 groups := updateGroupCounters st.groups ms' g }
            .ok (createSystemMessage st' g actor "user_removed" "removed a user" now)

/-- Translation of `PUT /api/groups/:groupId/admins/promote`
(`src/server/routes/groupRoutes.js` lines 456–490). -/
def promote (st : GState) (actor g target now : Nat) : RouteResult GState :=
  match findActive st.members g actor with
  | none => .err 403 "Only active members can perform this action"
  | some a =>
      if a.role ≠ Role.admin then .err 403 "Only admins can perform this action"
      else
        match findActive st.members g target with
        | none => .err 404 "Active member not found"
        | some t =>
            if t.role = Role.admin then .err 400 "User is already admin"
            else
              let ms' := updateFirst (isActivePair g target)
                (fun m => { m with role := Role.admin }) st.members
              let st' := { st with members := ms'
                                   groups := updateGroupCounters st.groups ms' g }
              .ok (createSystemMessage st' g actor "admin_promoted" "promoted a user" now)

/-- Translation of `PUT /api/groups/:groupId/admins/demote`
(`src/server/routes/groupRoutes.js` lines 493–530): the demotion is
refused while the group has at most one active admin. -/
def demote (st : GState) (actor g target now : Nat) : RouteResult GState :=
  match findActive st.members g actor with
  | none => .err 403 "Only active members can perform this action"
  | some a =>
      if a.role ≠ Role.admin then .err 403 "Only admins can perform this action"
      else
        match findActive st.members g target with
        | none => .err 404 "Active member not found"
        | some t =>
            if t.role ≠ Role.admin then .err 400 "User is not an admin"
            else if countActiveAdmins st.members g ≤ 1 then
              .err 400 "Group must have at least one admin"
            else
              let ms' := updateFirst (isActivePair g target)
                (fun m => { m with role := Role.member }) st.members
              let st' := { st with members := ms'
                                   groups := updateGroupCounters st.groups ms' g }
              .ok (createSystemMessage st' g actor "admin_demoted" "demoted an admin" now)

/-- Translation of `PUT /api/groups/:groupId/leave`
(`src/server/routes/groupRoutes.js` lines 533–573): a sole admin may not
leave while more than one active member remains; otherwise the actor's
document is tombstoned as left. -/
def leave (st : GState) (actor g now : Nat) : RouteResult GState :=
  match findActive st.members g actor with
  | none => .err 403 "Only active members can perform this action"
  | some membership =>
      if membership.role = Role.admin ∧ countActiveAdmins st.members g ≤ 1 ∧
          countActive st.members g > 1 then
        .err 400 "Transfer admin role before leaving the group"
      else
        let ms' := updateFirst (isActivePair g actor)
          (fun m => { m with status := .left, leftAt := some now }) st.members
        let st' := { st with members := ms'
                             groups := updateGroupCounters st.groups ms' g }
        .ok (createSystemMessage st' g actor "user_left" "left the group" now)

/-- Translation of `PUT /api/groups/messages/:id/edit`
(`src/server/routes/groupRoutes.js` lines 576–611). -/
def editGroup (st : GState) (actor msgId : Nat) (content : String) (now : Nat) :
    RouteResult (GState × List Evt) :=
  match Messages.findById st.msgs msgId with
  | none => .err 404 "Message not found"
  | some m =>
      if m.conversationType ≠ Messages.ConvType.group then .err 400 "Not a group message"
      else if m.messageType = Messages.MsgType.system then
        .err 400 "System messages cannot be edited"
      else if m.senderId ≠ actor then .err 401 "Not authorized"
      else if content.trim = "" then .err 400 "Message content is required"
      else
        match m.groupId.bind (fun g => findActive st.members g actor) with
        | none => .err 403 "Only active members can perform this action"
        | some _ =>
            let g := m.groupId.getD 0
            let db' := Messages.updateById st.msgs msgId (fun x =>
              { x with content := content.trim, isEdited := true, editedAt := some now })
            .ok ({ st with msgs := db'
                           groups := touchGroupLastMessage st.groups g content.trim now },
                 [Evt.toRoom g "group:message:update"])

/-- Translation of `PUT /api/groups/messages/:id/unsend`
(`src/server/routes/groupRoutes.js` lines 636–667): only the sender, never
a system message; on success `isUnsent` is set and `content` cleared, and
the update is broadcast to the group room. -/
def unsendGroup (st : GState) (actor msgId : Nat) : RouteResult (GState × List Evt) :=
  match Messages.findById st.msgs msgId with
  | none => .err 404 "Message not found"
  | some m =>
      if m.conversationType ≠ Messages.ConvType.group then .err 400 "Not a group message"
      else if m.messageType = Messages.MsgType.system then
        .err 400 "System messages cannot be unsent"
      else if m.senderId ≠ actor then .err 401 "Not authorized"
      else
        match m.groupId.bind (fun g => findActive st.members g actor) with
        | none => .err 403 "Only active members can perform this action"
        | some _ =>
            let g := m.groupId.getD 0
            let db' := Messages.updateById st.msgs msgId (fun x =>
              { x with isUnsent := true, content := "" })
            .ok ({ st with msgs := db' },
                 [Evt.toRoom g "group:message:update"])

/-- The unread count computed by `toConversationSummary`
(`src/server/routes/groupRoutes.js` lines 86–111): the viewer's active
membership is looked up, and the count is over group messages of this
group not authored by the viewer, not locally deleted by the viewer, and
created strictly after the membership's `lastReadAt` when one is stamped
(falling back to on-or-after the group's creation otherwise). -/
def summaryUnreadCount (msgs : List Messages.Msg) (ms : List Membership) (G : GroupRec)
    (viewer : Nat) : Nat :=
  let lastRead := (findActive ms G.id viewer).bind (fun m => m.lastReadAt)
  msgs.countP (fun x =>
    x.conversationType == Messages.ConvType.group &&
    x.groupId == some G.id &&
    !(x.senderId == viewer) &&
    !(x.deletedFor.contains viewer) &&
    (match lastRead with
     | some t => decide (t < x.createdAt)
     | none => decide (G.createdAt ≤ x.createdAt)))

/-- The count the claim asserts (stated from the spec's words, for the
refinement comparison): the number of messages in the group whose
`createdAt` is strictly after the membership's `lastReadAt`, whose sender
is not the viewer, and whose `deletedFor` set does not contain the
viewer. -/
def claimedUnreadCount (msgs : List Messages.Msg) (g viewer lastReadAt : Nat) : Nat :=
  msgs.countP (fun x =>
    x.conversationType == Messages.ConvType.group &&
    x.groupId == some g &&
    !(x.senderId == viewer) &&
    !(x.deletedFor.contains viewer) &&
    decide (lastReadAt < x.createdAt))

/-- The denormalized-counter property the spec asserts for one group: the
stored `memberCount` equals the number of active memberships and the
stored `adminCount` the number of active admin memberships, both recounted
from the membership store. -/
def countersOk (st : GState) (g : Nat) : Prop :=
  ∀ G ∈ st.groups, G.id = g →
    G.memberCount = countActive st.members g ∧ G.adminCount = countActiveAdmins st.members g

/-- Tombstone preservation: every membership document present before an
operation is still present for the same (group, user) pair afterwards —
no operation hard-deletes a row. -/
def keepsPairs (ms msNew : List Membership) : Prop :=
  ∀ m ∈ ms, ∃ m' ∈ msNew, m'.groupId = m.groupId ∧ m'.userId = m.userId

end Groups

namespace Sockets

/-- The acknowledgment value returned to a client-initiated socket
request. -/
structure Ack where
  ok : Bool
  message : Option String := none
  deriving DecidableEq, Repr

/-- Translation of the `group:join` handler of
`src/server/socketManager.js` (lines 105–119): the asserted group id is
re-validated against the membership store, and the socket joins the room
only when the user holds an active membership.  `rooms` is the set of
group rooms the socket is currently in. -/
def groupJoinHandler (ms : List Groups.Membership) (userId : Nat) (rooms : List Nat)
    (groupId : Option Nat) : List Nat × Ack :=
  match groupId with
  | none => (rooms, ⟨false, some "groupId is required"⟩)
  | some g =>
      match Groups.findActive ms g userId with
      | none => (rooms, ⟨false, some "Not a group member"⟩)
      | some _ => (if g ∈ rooms then rooms else rooms ++ [g], ⟨true, none⟩)

/-- Translation of the `group:leave` handler of
`src/server/socketManager.js` (lines 122–130): apart from requiring a
group id, the handler consults nothing — the socket leaves the room and
the request is acknowledged with ok, membership store unconsulted (the
`_ms` parameter is deliberately unused, mirroring the source). -/
def groupLeaveHandler (_ms : List Groups.Membership) (_userId : Nat) (rooms : List Nat)
    (groupId : Option Nat) : List Nat × Ack :=
  match groupId with
  | none => (rooms, ⟨false, some "groupId is required"⟩)
  | some g => (rooms.filter (fun r => r ≠ g), ⟨true, none⟩)

/-- The process-wide presence registry `userSocketMap` of
`src/server/socketManager.js`, modelled as an association list from user
id to socket id with JS `Map` get/set/delete semantics. -/
abbrev PresMap : Type := List (Nat × String)

/-- `userSocketMap.get(userId)`. -/
def pmGet (m : PresMap) (k : Nat) : Option String :=
  (List.find? (fun p => p.1 == k) m).map (fun p => p.2)

/-- `userSocketMap.set(userId, socketId)`: overwrite the entry for the key
if present, append otherwise (last-connect-wins). -/
def pmSet (m : PresMap) (k : Nat) (v : String) : PresMap :=
  if List.any m (fun p => p.1 == k) then
    List.map (fun p => if p.1 == k then (k, v) else p) m
  else m ++ [(k, v)]

/-- `userSocketMap.delete(userId)`. -/
def pmDelete (m : PresMap) (k : Nat) : PresMap :=
  List.filter (fun p => !(p.1 == k)) m

/-- The connection handler's registration step
(`src/server/socketManager.js` line 68): `userSocketMap.set(userId,
socket.id)`. -/
def onConnection (m : PresMap) (userId : Nat) (socketId : String) : PresMap :=
  pmSet m userId socketId

/-- The disconnect handler (`src/server/socketManager.js` lines 133–136):
`userSocketMap.delete(userId)`, keyed only by the captured user id — the
handler never checks whether the entry still belongs to the disconnecting
socket. -/
def onDisconnect (m : PresMap) (userId : Nat) : PresMap :=
  pmDelete m userId

end Sockets

namespace Examples

open Messages Groups Sockets

/-- A membership store with no record at all, for the socket handler
examples: user 7 holds no membership anywhere. -/
def emptyMembers : List Membership := []

/-- Viewer 7's active membership in group 1 with `lastReadAt` stamped at
tick 10. -/
def c5Member : Membership :=
  { groupId := 1, userId := 7, role := .member, status := .active, lastReadAt := some 10 }

/-- Membership store for the unread-count example. -/
def c5Members : List Membership := [c5Member]

/-- Group 1 for the unread-count example. -/
def c5Group : GroupRec := { id := 1, name := "ops", creatorId := 7, createdAt := 0 }

/-- Message collection for the unread-count example: one countable group
message, one older than `lastReadAt`, one authored by the viewer, one
locally deleted by the viewer, and one direct message. -/
def c5Msgs : List Messages.Msg :=
  [{ id := 1, conversationType := .group, groupId := some 1, senderId := 2,
     content := "a", createdAt := 11 },
   { id := 2, conversationType := .group, groupId := some 1, senderId := 2,
     content := "b", createdAt := 9 },
   { id := 3, conversationType := .group, groupId := some 1, senderId := 7,
     content := "c", createdAt := 12 },
   { id := 4, conversationType := .group, groupId := some 1, senderId := 2,
     content := "d", createdAt := 13, deletedFor := [7] },
   { id := 5, conversationType := .direct, senderId := 2, receiverId := some 7,
     encryptedContent := "e", createdAt := 14 }]

/-- Sole-admin membership record of user 10 in group 1. -/
def c2AdminRec : Membership := { groupId := 1, userId := 10, role := .admin, status := .active }

/-- A group state with two active members (admin 10, member 20). -/
def c2StTwo : GState :=
  { groups := [{ id := 1, name := "ops", creatorId := 10, memberCount := 2, adminCount := 1 }]
    members := [c2AdminRec, { groupId := 1, userId := 20, role := .member, status := .active }]
    msgs := [] }

/-- A group state whose only active member is the sole admin 10. -/
def c2StOne : GState :=
  { groups := [{ id := 1, name := "ops", creatorId := 10, memberCount := 1, adminCount := 1 }]
    members := [c2AdminRec]
    msgs := [] }

/-- The state after the sole member's successful leave of `c2StOne`. -/
def c2StOneAfter : GState :=
  match Groups.leave c2StOne 10 1 5 with
  | .ok s => s
  | .err _ _ => { groups := [], members := [], msgs := [] }

/-- The removed membership row of user 5 in group 1, about to be
reactivated by a re-add. -/
def c7RemovedRec : Membership :=
  { groupId := 1, userId := 5, role := .member, status := .removed
    removedAt := some 2, removedBy := some 9 }

/-- A group state in which admin 9 is active and user 5 was removed. -/
def c7St : GState :=
  { groups := [{ id := 1, name := "ops", creatorId := 9 }]
    members := [{ groupId := 1, userId := 9, role := .admin, status := .active }, c7RemovedRec]
    msgs := [] }

/-- The state after admin 9 re-adds the removed user 5. -/
def c7StAfter : GState :=
  match Groups.addMembers c7St 9 1 [5] 3 with
  | .ok s => s
  | .err _ _ => { groups := [], members := [], msgs := [] }

/-- A stored direct message from sender 1 to receiver 2. -/
def c3Msg : Messages.Msg :=
  { id := 1, conversationType := .direct, senderId := 1, receiverId := some 2
    encryptedContent := "ct", iv := "iv"
    encryptedKeyForReceiver := "kr", encryptedKeyForSender := "ks" }

/-- `c3Msg` after a successful unsend: payload cleared, `isUnsent` set. -/
def c3MsgUnsent : Messages.Msg :=
  { c3Msg with isUnsent := true, encryptedContent := "" }

/-- `c3MsgUnsent` after the sender's subsequent (accepted) edit. -/
def c3MsgEdited : Messages.Msg :=
  { c3MsgUnsent with
      encryptedContent := "ct2", iv := "iv2"
      encryptedKeyForReceiver := "kr2", encryptedKeyForSender := "ks2"
      isEdited := true, editedAt := some 5 }

/-- A stored direct message from sender 1 to receiver 2 for the
delete-for-me example. -/
def c9Msg : Messages.Msg :=
  { id := 1, conversationType := .direct, senderId := 1, receiverId := some 2
    encryptedContent := "ct", iv := "iv"
    encryptedKeyForReceiver := "kr", encryptedKeyForSender := "ks" }

/-- The collection after receiver 2 deletes `c9Msg` for themselves. -/
def c9Db : List Messages.Msg := [{ c9Msg with deletedFor := [2] }]

end Examples

end Gosty

namespace Gosty

namespace Crypto

/-- C1: for every plaintext and every two generated identity keypairs S and
R, decrypting the output of `encryptMessage(P, R.publicKey, S.publicKey)`
with S's private key (via the sender-wrapped key) yields P, decrypting it
with R's private key (via the receiver-wrapped key) also yields P, and both
wrapped keys unwrap to the same one-time symmetric session key. -/
theorem c1_encrypt_decrypt_round_trip (text : String) (sSeed rSeed sessionKey nonce : Nat) :
    decryptMessage true
        (encryptMessage true text (generateKeyPair true rSeed).publicKey
          (generateKeyPair true sSeed).publicKey sessionKey nonce).encryptedContent
        (encryptMessage true text (generateKeyPair true rSeed).publicKey
          (generateKeyPair true sSeed).publicKey sessionKey nonce).iv
        (encryptMessage true text (generateKeyPair true rSeed).publicKey
          (generateKeyPair true sSeed).publicKey sessionKey nonce).encryptedKeyForSender
        (generateKeyPair true sSeed).privateKey = text ∧
    decryptMessage true
        (encryptMessage true text (generateKeyPair true rSeed).publicKey
          (generateKeyPair true sSeed).publicKey sessionKey nonce).encryptedContent
        (encryptMessage true text (generateKeyPair true rSeed).publicKey
          (generateKeyPair true sSeed).publicKey sessionKey nonce).iv
        (encryptMessage true text (generateKeyPair true rSeed).publicKey
          (generateKeyPair true sSeed).publicKey sessionKey nonce).encryptedKeyForReceiver
        (generateKeyPair true rSeed).privateKey = text ∧
    rsaOaepDecrypt (generateKeyPair true sSeed).privateKey
        (encryptMessage true text (generateKeyPair true rSeed).publicKey
          (generateKeyPair true sSeed).publicKey sessionKey nonce).encryptedKeyForSender
      = some sessionKey ∧
    rsaOaepDecrypt (generateKeyPair true rSeed).privateKey
        (encryptMessage true text (generateKeyPair true rSeed).publicKey
          (generateKeyPair true sSeed).publicKey sessionKey nonce).encryptedKeyForReceiver
      = some sessionKey := by
  simp [generateKeyPair, encryptMessage, decryptMessage, decryptCore,
    rsaOaepDecrypt, aesGcmDecrypt, PubKeyPem.isDummy, insecurePayload]

/-- C8: `decryptMessage` is a total function into `String` (the `try/catch`
never lets an exception escape), in an unsupported context it returns the
insecure-context placeholder, and whenever the core decryption pipeline
fails — in particular when the private key is the absent/dummy handle, when
it does not match the key the session key was wrapped under, or when the
wrapped key is a malformed blob — the caller receives the
`[[DECRYPTION FAILED: INVALID KEY]]` placeholder rather than a propagated
exception. -/
theorem c8_decrypt_failure_yields_placeholder (enc ivb key : B64) (priv : PrivKey)
    (hmock : ∀ t, enc ≠ B64.insecureMock t) :
    decryptMessage false enc ivb key priv = "[[DECRYPTION FAILED: INSECURE CONTEXT]]" ∧
    (decryptCore enc ivb key priv = none →
      decryptMessage true enc ivb key priv = "[[DECRYPTION FAILED: INVALID KEY]]") ∧
    (priv = PrivKey.insecure → decryptCore enc ivb key priv = none) ∧
    (∀ pub k n, key = B64.rsa pub k → priv = PrivKey.real n → pub ≠ n →
      decryptCore enc ivb key priv = none) ∧
    (∀ s, key = B64.junk s → decryptCore enc ivb key priv = none) := by
  refine ⟨?_, ?_, ?_, ?_, ?_⟩
  · cases enc with
    | insecureMock t => exact absurd rfl (hmock t)
    | aes k n t => simp [decryptMessage]
    | rsa p k => simp [decryptMessage]
    | ivBytes n => simp [decryptMessage]
    | junk s => simp [decryptMessage]
  · intro hnone
    cases enc with
    | insecureMock t => exact absurd rfl (hmock t)
    | aes k n t => simp [decryptMessage, hnone]
    | rsa p k => simp [decryptMessage, hnone]
    | ivBytes n => simp [decryptMessage, hnone]
    | junk s => simp [decryptMessage, hnone]
  · rintro rfl
    cases key <;> simp [decryptCore, rsaOaepDecrypt]
  · rintro pub k n rfl rfl hne
    simp [decryptCore, rsaOaepDecrypt, hne]
  · rintro s rfl
    simp [decryptCore, rsaOaepDecrypt]

/-- Witness for `c8_decrypt_failure_yields_placeholder` at a concrete
malformed input: junk ciphertext and wrapped key, dummy private key. -/
theorem c8_decrypt_failure_yields_placeholder_witness :
    decryptMessage false (B64.junk "x") (B64.junk "y") (B64.junk "z") PrivKey.insecure
      = "[[DECRYPTION FAILED: INSECURE CONTEXT]]" ∧
    decryptMessage true (B64.junk "x") (B64.junk "y") (B64.junk "z") PrivKey.insecure
      = "[[DECRYPTION FAILED: INVALID KEY]]" := by
  have h := c8_decrypt_failure_yields_placeholder (B64.junk "x") (B64.junk "y")
    (B64.junk "z") PrivKey.insecure (by intro t h; cases h)
  exact ⟨h.1, h.2.1 (h.2.2.2.2 "z" rfl)⟩

end Crypto

namespace Sockets

/-- Auxiliary: after `set(k, v)` the registry maps `k` to `v`. -/
theorem pmGet_pmSet (m : PresMap) (u : Nat) (v : String) :
    pmGet (pmSet m u v) u = some v := by
  induction m with
  | nil => simp [pmSet, pmGet]
  | cons a rest ih =>
      by_cases h : a.1 = u
      · simp [pmSet, pmGet, h]
      · by_cases h2 : rest.any (fun p => p.1 == u)
        · have hset : pmSet rest u v
              = rest.map (fun p => if p.1 == u then ((u, v) : Nat × String) else p) := by
            simp [pmSet, h2]
          rw [hset] at ih
          simpa [pmSet, pmGet, List.any_cons, h, h2] using ih
        · have hset : pmSet rest u v = rest ++ [(u, v)] := by
            simp [pmSet, h2]
          rw [hset] at ih
          simpa [pmSet, pmGet, List.any_cons, h, h2] using ih

/-- Auxiliary: after `delete(k)` the registry has no entry for `k`. -/
theorem pmGet_pmDelete (m : PresMap) (u : Nat) :
    pmGet (pmDelete m u) u = none := by
  simp only [pmGet, pmDelete, Option.map_eq_none', List.find?_eq_none]
  intro p hp
  simp only [List.mem_filter] at hp
  simpa using hp.2

/-- C10: the disconnect handler removes the presence entry keyed by the
disconnecting user's id unconditionally.  After `connect(u, s1)` then
`connect(u, s2)` (so that s2 is the registered delivery target), the
disconnect of the displaced connection s1 runs `delete(u)`, and the lookup
for u afterwards returns nothing — the still-open connection s2 is no
longer the delivery target. -/
theorem c10_disconnect_drops_displaced_user (m : PresMap) (u : Nat) (s1 s2 : String) :
    pmGet (onConnection (onConnection m u s1) u s2) u = some s2 ∧
    pmGet (onDisconnect (onConnection (onConnection m u s1) u s2) u) u = none :=
  ⟨pmGet_pmSet (onConnection m u s1) u s2,
   pmGet_pmDelete (onConnection (onConnection m u s1) u s2) u⟩

/-- C4 counterexample: the claim asserts that a `group:leave` for a group
where the user holds no active membership is not honored; but for user 7
with an empty membership store the leave handler still removes the socket
from room 5 and acknowledges with ok — the membership store is never
consulted. -/
theorem c4_counterexample :
    Groups.findActive Examples.emptyMembers 5 7 = none ∧
    groupLeaveHandler Examples.emptyMembers 7 [5] (some 5) = ([], ⟨true, none⟩) :=
  ⟨rfl, rfl⟩

/-- C4 (amended): a client-initiated `group:join` is re-validated against
the membership store — without an active membership it is refused with
ok=false and a message and the room set is unchanged, with one it is
honored and acknowledged ok — and both handlers refuse a missing group id;
but `group:leave` is honored and acknowledged ok without any membership
re-validation whenever a group id is supplied. -/
theorem c4_join_validated_leave_not (ms : List Groups.Membership) (userId : Nat)
    (rooms : List Nat) (g : Nat) :
    (Groups.findActive ms g userId = none →
        groupJoinHandler ms userId rooms (some g)
          = (rooms, ⟨false, some "Not a group member"⟩)) ∧
    (∀ mem, Groups.findActive ms g userId = some mem →
        (groupJoinHandler ms userId rooms (some g)).2 = ⟨true, none⟩ ∧
        g ∈ (groupJoinHandler ms userId rooms (some g)).1) ∧
    (groupJoinHandler ms userId rooms none).2.ok = false ∧
    (groupLeaveHandler ms userId rooms none).2.ok = false ∧
    (groupLeaveHandler ms userId rooms (some g)).2 = ⟨true, none⟩ ∧
    g ∉ (groupLeaveHandler ms userId rooms (some g)).1 := by
  refine ⟨?_, ?_, rfl, rfl, rfl, ?_⟩
  · intro h
    simp [groupJoinHandler, h]
  · intro mem h
    refine ⟨by simp [groupJoinHandler, h], ?_⟩
    by_cases hg : g ∈ rooms <;> simp [groupJoinHandler, h, hg]
  · simp [groupLeaveHandler, List.mem_filter]

/-- Witness for `c4_join_validated_leave_not`: user 7 with no membership
asking to join group 5 is refused. -/
theorem c4_join_validated_leave_not_witness :
    groupJoinHandler Examples.emptyMembers 7 ([] : List Nat) (some 5)
      = ([], ⟨false, some "Not a group member"⟩) :=
  (c4_join_validated_leave_not Examples.emptyMembers 7 [] 5).1 rfl

end Sockets

namespace Groups

/-- C5: for a viewer holding an active membership with a stamped
`lastReadAt`, the unread count of `toConversationSummary` equals exactly
the number of messages of the group whose `createdAt` is strictly after
`lastReadAt`, whose sender is not the viewer, and whose `deletedFor` set
does not contain the viewer. -/
theorem c5_unread_count_exact (msgs : List Messages.Msg) (ms : List Membership)
    (G : GroupRec) (viewer : Nat) (mem : Membership) (t : Nat)
    (hfind : findActive ms G.id viewer = some mem)
    (hlast : mem.lastReadAt = some t) :
    summaryUnreadCount msgs ms G viewer = claimedUnreadCount msgs G.id viewer t := by
  simp only [summaryUnreadCount, claimedUnreadCount, hfind, Option.some_bind, hlast]

/-- Witness for `c5_unread_count_exact` on the concrete example: of the
five stored messages exactly one is unread for viewer 7. -/
theorem c5_unread_count_exact_witness :
    Gosty.Examples.c5Member.lastReadAt = some 10 ∧
    summaryUnreadCount Gosty.Examples.c5Msgs Gosty.Examples.c5Members Gosty.Examples.c5Group 7
      = claimedUnreadCount Gosty.Examples.c5Msgs 1 7 10 ∧
    claimedUnreadCount Gosty.Examples.c5Msgs 1 7 10 = 1 :=
  ⟨rfl,
   c5_unread_count_exact Gosty.Examples.c5Msgs Gosty.Examples.c5Members Gosty.Examples.c5Group
     7 Gosty.Examples.c5Member 10 (by decide) rfl,
   by decide⟩

/-- Auxiliary: a successful `find?` splits the list around the first hit,
and `updateFirst` with the same predicate rewrites exactly that element,
leaving both sides untouched. -/
theorem updateFirst_split {α : Type} (p : α → Bool) (f : α → α) :
    ∀ (l : List α) (x : α), l.find? p = some x →
      ∃ l1 l2, l = l1 ++ x :: l2 ∧ (∀ y ∈ l1, p y = false) ∧ p x = true ∧
        updateFirst p f l = l1 ++ f x :: l2 := by
  intro l
  induction l with
  | nil => intro x h; cases h
  | cons a rest ih =>
      intro x h
      by_cases hp : p a
      · rw [List.find?_cons_of_pos rest hp] at h
        obtain rfl : a = x := by injection h
        exact ⟨[], rest, rfl, (fun y hy => absurd hy (List.not_mem_nil y)), hp,
          by simp [updateFirst, hp]⟩
      · rw [List.find?_cons_of_neg rest hp] at h
        obtain ⟨l1, l2, hl, hnone, hx, hup⟩ := ih x h
        refine ⟨a :: l1, l2, by rw [hl]; rfl, ?_, hx, ?_⟩
        · intro y hy
          rcases List.mem_cons.mp hy with rfl | hy'
          · exact Bool.eq_false_iff.mpr hp
          · exact hnone y hy'
        · simp [updateFirst, hp, hup]

/-- C2: in a group whose active memberships contain exactly one admin, if
more than one active member remains then every demote request targeting
the sole admin and the sole admin's own leave request are answered with an
error (the handlers return before writing anything, so no membership
record changes); if the sole admin is the only active member, the leave
succeeds, that membership's status becomes left, and the group has no
active member afterwards. -/
theorem c2_admin_floor (st : GState) (g u : Nat) (mu : Membership)
    (hfind : findActive st.members g u = some mu)
    (hrole : mu.role = Role.admin)
    (hadmins : countActiveAdmins st.members g = 1) :
    (countActive st.members g > 1 →
      (∀ actor now, (demote st actor g u now).isErr = true) ∧
      (∀ now, (leave st u g now).isErr = true)) ∧
    (countActive st.members g = 1 →
      ∀ now, (leave st u g now).isErr = false ∧
        ∀ st', leave st u g now = RouteResult.ok st' →
          (∃ m' ∈ st'.members, m'.groupId = g ∧ m'.userId = u ∧
             m'.status = MemberStatus.left ∧ m'.leftAt = some now) ∧
          countActive st'.members g = 0) := by
  constructor
  · intro hgt
    constructor
    · intro actor now
      cases hA : findActive st.members g actor with
      | none => simp [demote, hA, RouteResult.isErr]
      | some a =>
          by_cases hr : a.role = Role.admin
          · simp [demote, hA, hr, hfind, hrole, hadmins, RouteResult.isErr]
          · simp [demote, hA, hr, RouteResult.isErr]
    · intro now
      simp [leave, hfind, hrole, hadmins, hgt, RouteResult.isErr]
  · intro hone now
    have hcond : ¬(mu.role = Role.admin ∧ countActiveAdmins st.members g ≤ 1 ∧
        countActive st.members g > 1) := by
      rintro ⟨-, -, hgt⟩
      omega
    constructor
    · simp [leave, hfind, hcond, RouteResult.isErr]
    · intro st' heq
      obtain ⟨l1, l2, hl, hnone, hpu, hup⟩ :=
        updateFirst_split (isActivePair g u)
          (fun m => { m with status := .left, leftAt := some now }) st.members mu hfind
      have hfields : (mu.groupId = g ∧ mu.userId = u) ∧ mu.status = MemberStatus.active := by
        simpa [isActivePair, Bool.and_eq_true] using hpu
      have hmem : st'.members = l1 ++
          ({ mu with status := MemberStatus.left, leftAt := some now } : Membership) :: l2 := by
        simp only [leave, hfind] at heq
        rw [if_neg hcond] at heq
        cases heq
        simpa [createSystemMessage] using hup
      have hq : (mu.groupId == g && mu.status == MemberStatus.active) = true := by
        simp [hfields.1.1, hfields.2]
      have hcount : List.countP (fun m : Membership =>
          m.groupId == g && m.status == MemberStatus.active) l1 = 0 ∧
          List.countP (fun m : Membership =>
          m.groupId == g && m.status == MemberStatus.active) l2 = 0 := by
        have h1 := hone
        rw [countActive, hl] at h1
        rw [List.countP_append, List.countP_cons] at h1
        simp only [hq, if_pos] at h1
        omega
      constructor
      · refine ⟨{ mu with status := MemberStatus.left, leftAt := some now }, ?_, ?_, ?_, rfl, rfl⟩
        · rw [hmem]
          exact List.mem_append_right _ (List.mem_cons_self _ _)
        · exact hfields.1.1
        · exact hfields.1.2
      · rw [countActive, hmem, List.countP_append, List.countP_cons]
        simp [hcount.1, hcount.2]

/-- Witness for `c2_admin_floor` on the two concrete states: demote and
leave refused with two active members, leave accepted and emptying the
group with one. -/
theorem c2_admin_floor_witness :
    (demote Gosty.Examples.c2StTwo 10 1 10 0).isErr = true ∧
    (leave Gosty.Examples.c2StTwo 10 1 0).isErr = true ∧
    (leave Gosty.Examples.c2StOne 10 1 5).isErr = false ∧
    countActive Gosty.Examples.c2StOneAfter.members 1 = 0 := by
  have hTwo := c2_admin_floor Gosty.Examples.c2StTwo 1 10 Gosty.Examples.c2AdminRec
    (by decide) rfl (by decide)
  have hOne := c2_admin_floor Gosty.Examples.c2StOne 1 10 Gosty.Examples.c2AdminRec
    (by decide) rfl (by decide)
  refine ⟨(hTwo.1 (by decide)).1 10 0, (hTwo.1 (by decide)).2 0, (hOne.2 (by decide) 5).1, ?_⟩
  exact ((hOne.2 (by decide) 5).2 Gosty.Examples.c2StOneAfter rfl).2

/-- Auxiliary: every group record with the given id found after a counter
recomputation carries exactly the recomputed counts. -/
theorem countersOk_of_update (gs : List GroupRec) (ms : List Membership) (g : Nat) :
    ∀ G ∈ updateGroupCounters gs ms g, G.id = g →
      G.memberCount = countActive ms g ∧ G.adminCount = countActiveAdmins ms g := by
  intro G hG hid
  simp only [updateGroupCounters, List.mem_map] at hG
  obtain ⟨G0, hG0, rfl⟩ := hG
  by_cases h0 : G0.id = g
  · simp [h0]
  · simp [h0] at hid

/-- Auxiliary: the subsequent last-message stamp preserves the recomputed
counts. -/
theorem countersOk_of_update_touch (gs : List GroupRec) (ms : List Membership) (g : Nat)
    (preview : String) (now : Nat) :
    ∀ G ∈ touchGroupLastMessage (updateGroupCounters gs ms g) g preview now, G.id = g →
      G.memberCount = countActive ms g ∧ G.adminCount = countActiveAdmins ms g := by
  intro G hG hid
  simp only [touchGroupLastMessage, List.mem_map] at hG
  obtain ⟨G1, hG1, rfl⟩ := hG
  by_cases h1 : G1.id = g
  · obtain ⟨hm, ha⟩ := countersOk_of_update gs ms g G1 hG1 h1
    simp [h1, hm, ha]
  · simp [h1] at hid

/-- Auxiliary: the common success shape of the remove/promote/demote/leave
routes — counters recomputed from the new membership store, then a system
message appended — satisfies the counter property. -/
theorem countersOk_final (st : GState) (g actor : Nat) (ms' : List Membership)
    (act cnt : String) (now : Nat) :
    countersOk (createSystemMessage
      { st with members := ms', groups := updateGroupCounters st.groups ms' g }
      g actor act cnt now) g := by
  intro G hG hid
  refine countersOk_of_update_touch st.groups ms' g cnt now G ?_ hid
  simpa [createSystemMessage] using hG

/-- Auxiliary: the freshly inserted membership rows of a new group are all
active, so the recount over them is the length of the id list. -/
theorem countActive_create (stm : List Membership) (g actor now : Nat) (ids : List Nat)
    (hfresh : ∀ m ∈ stm, m.groupId ≠ g) :
    countActive (stm ++ ids.map (newGroupMember g actor now)) g = ids.length := by
  have hz : List.countP (fun m : Membership =>
      m.groupId == g && m.status == MemberStatus.active) stm = 0 :=
    List.countP_eq_zero.mpr (by
      intro m hm h
      rw [Bool.and_eq_true] at h
      exact hfresh m hm (eq_of_beq h.1))
  have ha : List.countP ((fun m : Membership =>
      m.groupId == g && m.status == MemberStatus.active) ∘ newGroupMember g actor now)
      ids = ids.length :=
    List.countP_eq_length.mpr (by intro uid _; simp [newGroupMember, Function.comp])
  rw [countActive, List.countP_append, hz, List.countP_map, ha, Nat.zero_add]

/-- Auxiliary: among the freshly inserted membership rows of a new group
exactly the creator's is an admin row. -/
theorem countAdmins_create (stm : List Membership) (g actor now : Nat) (ids : List Nat)
    (hfresh : ∀ m ∈ stm, m.groupId ≠ g) (hnd : ids.Nodup) (hmem : actor ∈ ids) :
    countActiveAdmins (stm ++ ids.map (newGroupMember g actor now)) g = 1 := by
  have hz : List.countP (fun m : Membership =>
      m.groupId == g && m.status == MemberStatus.active && m.role == Role.admin) stm = 0 :=
    List.countP_eq_zero.mpr (by
      intro m hm h
      rw [Bool.and_eq_true, Bool.and_eq_true] at h
      exact hfresh m hm (eq_of_beq h.1.1))
  have hc : List.countP ((fun m : Membership =>
      m.groupId == g && m.status == MemberStatus.active && m.role == Role.admin) ∘
      newGroupMember g actor now) ids = List.countP (fun uid => uid == actor) ids := by
    refine List.countP_congr ?_
    intro uid _
    by_cases huid : uid = actor <;> simp [newGroupMember, Function.comp, huid]
  rw [countActiveAdmins, List.countP_append, hz, List.countP_map, hc, Nat.zero_add,
    ← List.count_eq_countP, List.count_eq_one_of_mem hnd hmem]

/-- Auxiliary: the state produced by a successful group creation satisfies
the counter property, because the hand-written initial values coincide
with the recount over the fresh group's membership rows. -/
theorem countersOk_create (st : GState) (g actor now : Nat) (nm pv : String) (ids : List Nat)
    (hfM : ∀ m ∈ st.members, m.groupId ≠ g) (hfG : ∀ G ∈ st.groups, G.id ≠ g)
    (hnd : ids.Nodup) (hmem : actor ∈ ids) :
    countersOk (createSystemMessage
      { groups := st.groups ++
          [{ id := g, name := nm, creatorId := actor,
             memberCount := ids.length, adminCount := 1, createdAt := now }]
        members := st.members ++ ids.map (newGroupMember g actor now)
        msgs := st.msgs } g actor "user_added" pv now) g := by
  intro G hG hid
  simp only [createSystemMessage, touchGroupLastMessage, List.mem_map] at hG
  obtain ⟨G1, hG1, rfl⟩ := hG
  rcases List.mem_append.mp hG1 with hin | hin
  · have hne : G1.id ≠ g := hfG G1 hin
    simp [hne] at hid
  · rw [List.mem_singleton] at hin
    subst hin
    rw [if_pos (by simp :
      ((({ id := g, name := nm, creatorId := actor,
           memberCount := ids.length, adminCount := 1,
           createdAt := now } : GroupRec)).id == g) = true)]
    exact ⟨(countActive_create st.members g actor now ids hfM).symm,
           (countAdmins_create st.members g actor now ids hfM hnd hmem).symm⟩

/-- C6: after every membership-mutating operation that succeeds — create
group (on a fresh group id), add members, remove member, promote, demote,
leave — every stored record of the group carries a `memberCount` equal to
the number of memberships with status active and an `adminCount` equal to
the number of active admin memberships, both recounted from the membership
store (the create route writes the initial values directly, but they
coincide with the recount over the fresh group's memberships). -/
theorem c6_counters_recomputed (st : GState) (g : Nat) :
    (∀ actor name mids now st',
        (∀ m ∈ st.members, m.groupId ≠ g) → (∀ G ∈ st.groups, G.id ≠ g) →
        createGroup st actor g name mids now = RouteResult.ok st' → countersOk st' g) ∧
    (∀ actor uids now st',
        addMembers st actor g uids now = RouteResult.ok st' → countersOk st' g) ∧
    (∀ actor target now st',
        removeMember st actor g target now = RouteResult.ok st' → countersOk st' g) ∧
    (∀ actor target now st',
        promote st actor g target now = RouteResult.ok st' → countersOk st' g) ∧
    (∀ actor target now st',
        demote st actor g target now = RouteResult.ok st' → countersOk st' g) ∧
    (∀ actor now st',
        leave st actor g now = RouteResult.ok st' → countersOk st' g) := by
  refine ⟨?_, ?_, ?_, ?_, ?_, ?_⟩
  · -- create group
    intro actor name mids now st' hfM hfG hsucc
    by_cases hname : name.trim = ""
    · simp [createGroup, hname] at hsucc
    · simp [createGroup, hname] at hsucc
      subst hsucc
      exact countersOk_create st g actor now name.trim "created the group"
        ((actor :: mids).dedup) hfM hfG (List.nodup_dedup _)
        (List.mem_dedup.mpr (List.mem_cons_self _ _))
  · -- add members
    intro actor uids now st' hsucc
    cases hA : findActive st.members g actor with
    | none => simp [addMembers, hA] at hsucc
    | some a =>
        by_cases hr : a.role = Role.admin
        · simp [addMembers, hA, hr] at hsucc
          split at hsucc
          · cases hsucc
          · cases hsucc
            exact fun G hG hid => countersOk_of_update _ _ _ G hG hid
        · simp [addMembers, hA, hr] at hsucc
  · -- remove member
    intro actor target now st' hsucc
    cases hA : findActive st.members g actor with
    | none => simp [removeMember, hA] at hsucc
    | some a =>
        by_cases hr : a.role = Role.admin
        · by_cases hself : target = actor
          · simp [removeMember, hA, hr, hself] at hsucc
          · cases hT : findActive st.members g target with
            | none => simp [removeMember, hA, hr, hself, hT] at hsucc
            | some t =>
                simp [removeMember, hA, hr, hself, hT] at hsucc
                subst hsucc
                exact countersOk_final st g actor _ "user_removed" "removed a user" now
        · simp [removeMember, hA, hr] at hsucc
  · -- promote
    intro actor target now st' hsucc
    cases hA : findActive st.members g actor with
    | none => simp [promote, hA] at hsucc
    | some a =>
        by_cases hr : a.role = Role.admin
        · cases hT : findActive st.members g target with
          | none => simp [promote, hA, hr, hT] at hsucc
          | some t =>
              by_cases ht : t.role = Role.admin
              · simp [promote, hA, hr, hT, ht] at hsucc
              · simp [promote, hA, hr, hT, ht] at hsucc
                subst hsucc
                exact countersOk_final st g actor _ "admin_promoted" "promoted a user" now
        · simp [promote, hA, hr] at hsucc
  · -- demote
    intro actor target now st' hsucc
    cases hA : findActive st.members g actor with
    | none => simp [demote, hA] at hsucc
    | some a =>
        by_cases hr : a.role = Role.admin
        · cases hT : findActive st.members g target with
          | none => simp [demote, hA, hr, hT] at hsucc
          | some t =>
              by_cases ht : t.role = Role.admin
              · by_cases hc : countActiveAdmins st.members g ≤ 1
                · simp [demote, hA, hr, hT, ht, hc] at hsucc
                · simp [demote, hA, hr, hT, ht, hc] at hsucc
                  subst hsucc
                  exact countersOk_final st g actor _ "admin_demoted" "demoted an admin" now
              · simp [demote, hA, hr, hT, ht] at hsucc
        · simp [demote, hA, hr] at hsucc
  · -- leave
    intro actor now st' hsucc
    cases hA : findActive st.members g actor with
    | none => simp [leave, hA] at hsucc
    | some membership =>
        by_cases hcond : membership.role = Role.admin ∧ countActiveAdmins st.members g ≤ 1 ∧
            countActive st.members g > 1
        · simp [leave, hA, hcond] at hsucc
        · simp [leave, hA, hcond] at hsucc
          subst hsucc
          exact countersOk_final st g actor _ "user_left" "left the group" now

/-- Witness for `c6_counters_recomputed` on the sole member's concrete
leave of `c2StOne`: the stored counters of group 1 afterwards equal the
recomputed counts. -/
theorem c6_counters_recomputed_witness :
    countersOk Gosty.Examples.c2StOneAfter 1 :=
  (c6_counters_recomputed Gosty.Examples.c2StOne 1).2.2.2.2.2 10 5
    Gosty.Examples.c2StOneAfter rfl

/-- Auxiliary: `keepsPairs` is reflexive. -/
theorem keepsPairs_refl (ms : List Membership) : keepsPairs ms ms :=
  fun m hm => ⟨m, hm, rfl, rfl⟩

/-- Auxiliary: appending rows keeps every existing pair. -/
theorem keepsPairs_append (ms xs : List Membership) : keepsPairs ms (ms ++ xs) :=
  fun m hm => ⟨m, List.mem_append_left _ hm, rfl, rfl⟩

/-- Auxiliary: `keepsPairs` composes. -/
theorem keepsPairs_trans {m1 m2 m3 : List Membership}
    (h1 : keepsPairs m1 m2) (h2 : keepsPairs m2 m3) : keepsPairs m1 m3 := by
  intro m hm
  obtain ⟨m', hm', e1, e2⟩ := h1 m hm
  obtain ⟨m'', hm'', e1', e2'⟩ := h2 m' hm'
  exact ⟨m'', hm'', e1'.trans e1, e2'.trans e2⟩

/-- Auxiliary: an in-place update that does not change the (group, user)
pair of the touched row keeps every pair. -/
theorem keepsPairs_updateFirst (p : Membership → Bool) (f : Membership → Membership)
    (hf : ∀ m, (f m).groupId = m.groupId ∧ (f m).userId = m.userId) :
    ∀ ms : List Membership, keepsPairs ms (updateFirst p f ms) := by
  intro ms
  induction ms with
  | nil => intro m hm; cases hm
  | cons a rest ih =>
      intro m hm
      by_cases hp : p a
      · rcases List.mem_cons.mp hm with rfl | hm'
        · exact ⟨f m, by simp [updateFirst, hp], (hf m).1, (hf m).2⟩
        · exact ⟨m, by simp [updateFirst, hp, hm'], rfl, rfl⟩
      · rcases List.mem_cons.mp hm with rfl | hm'
        · exact ⟨m, by simp [updateFirst, hp], rfl, rfl⟩
        · obtain ⟨m', hm'', e1, e2⟩ := ih m hm'
          refine ⟨m', ?_, e1, e2⟩
          have hu : updateFirst p f (a :: rest) = a :: updateFirst p f rest := by
            simp [updateFirst, hp]
          rw [hu]
          exact List.mem_cons_of_mem a hm''

/-- Auxiliary: one iteration of the add-members loop keeps every pair
(it either skips, reactivates in place, or appends). -/
theorem keepsPairs_addOne (actor g now uid : Nat) (st : GState) :
    keepsPairs st.members (addOne actor g now st uid).members := by
  cases h : findAny st.members g uid with
  | none =>
      have hm : (addOne actor g now st uid).members = st.members ++
          [{ groupId := g, userId := uid, role := .member, status := .active
             addedBy := some actor, joinedAt := some now, lastReadAt := some now }] := by
        simp [addOne, h, createSystemMessage]
      rw [hm]
      exact keepsPairs_append _ _
  | some e =>
      by_cases hs : e.status = MemberStatus.active
      · have hm : (addOne actor g now st uid).members = st.members := by
          simp [addOne, h, hs]
        rw [hm]
        exact keepsPairs_refl _
      · have hm : (addOne actor g now st uid).members =
            updateFirst (fun m => m.groupId == g && m.userId == uid)
              (reactivate actor now) st.members := by
          simp [addOne, h, hs, createSystemMessage]
        rw [hm]
        refine keepsPairs_updateFirst _ _ ?_ _
        intro m
        exact ⟨rfl, rfl⟩

/-- Auxiliary: the whole add-members loop keeps every pair. -/
theorem keepsPairs_foldl (actor g now : Nat) :
    ∀ (ids : List Nat) (st : GState),
      keepsPairs st.members ((ids.foldl (addOne actor g now) st).members) := by
  intro ids
  induction ids with
  | nil => intro st; exact keepsPairs_refl _
  | cons uid rest ih =>
      intro st
      exact keepsPairs_trans (keepsPairs_addOne actor g now uid st)
        (ih (addOne actor g now st uid))

/-- C7: re-adding a user whose single membership row for the pair has
status left or removed reactivates that same row — afterwards there is
still exactly one row for the pair, and it is active, role member, with
the leftAt/removedAt/removedBy tombstone fields cleared — and no
operation (create, add, remove, promote, demote, leave) ever hard-deletes
a membership row: every pair present before is present after. -/
theorem c7_membership_single_row (st : GState) (g u : Nat) :
    (∀ actor e now st',
        findAny st.members g u = some e →
        (e.status = MemberStatus.left ∨ e.status = MemberStatus.removed) →
        pairCount st.members g u = 1 →
        u ≠ actor →
        addMembers st actor g [u] now = RouteResult.ok st' →
        pairCount st'.members g u = 1 ∧
        ∀ m' ∈ st'.members, m'.groupId = g → m'.userId = u →
          m'.status = MemberStatus.active ∧ m'.role = Role.member ∧
          m'.leftAt = none ∧ m'.removedAt = none ∧ m'.removedBy = none) ∧
    (∀ actor gid name mids now st',
        createGroup st actor gid name mids now = RouteResult.ok st' →
        keepsPairs st.members st'.members) ∧
    (∀ actor g2 uids now st',
        addMembers st actor g2 uids now = RouteResult.ok st' →
        keepsPairs st.members st'.members) ∧
    (∀ actor g2 target now st',
        removeMember st actor g2 target now = RouteResult.ok st' →
        keepsPairs st.members st'.members) ∧
    (∀ actor g2 target now st',
        promote st actor g2 target now = RouteResult.ok st' →
        keepsPairs st.members st'.members) ∧
    (∀ actor g2 target now st',
        demote st actor g2 target now = RouteResult.ok st' →
        keepsPairs st.members st'.members) ∧
    (∀ actor g2 now st',
        leave st actor g2 now = RouteResult.ok st' →
        keepsPairs st.members st'.members) := by
  refine ⟨?_, ?_, ?_, ?_, ?_, ?_, ?_⟩
  · -- reactivation of the single row
    intro actor e now st' hfindAny hst hpair hne hsucc
    have hnact : e.status ≠ MemberStatus.active := by
      rcases hst with h | h <;> simp [h]
    cases hA : findActive st.members g actor with
    | none => simp [addMembers, hA] at hsucc
    | some a =>
        by_cases hr : a.role = Role.admin
        · simp [addMembers, hA, hr, hne] at hsucc
          subst hsucc
          have hmem : ((addOne actor g now st u).members) =
              updateFirst (fun m => m.groupId == g && m.userId == u)
                (reactivate actor now) st.members := by
            simp [addOne, hfindAny, hnact, createSystemMessage]
          have hfind2 : st.members.find? (fun m => m.groupId == g && m.userId == u)
              = some e := hfindAny
          obtain ⟨l1, l2, hl, hnone, hpe, hup⟩ :=
            updateFirst_split (fun m => m.groupId == g && m.userId == u)
              (reactivate actor now) st.members e hfind2
          have hz1 : List.countP (fun m : Membership => m.groupId == g && m.userId == u) l1
              = 0 := List.countP_eq_zero.mpr (by intro y hy; simp [hnone y hy])
          have hz2 : List.countP (fun m : Membership => m.groupId == g && m.userId == u) l2
              = 0 := by
            have hp1 := hpair
            rw [pairCount, hl, List.countP_append, List.countP_cons, hpe] at hp1
            simp at hp1
            omega
          have hpre : ((reactivate actor now e).groupId == g &&
              (reactivate actor now e).userId == u) = true := hpe
          constructor
          · show pairCount (addOne actor g now st u).members g u = 1
            rw [hmem, pairCount, hup, List.countP_append, List.countP_cons, hpre, hz1, hz2]
            simp
          · intro m' hm' hg' hu'
            have hm2 : m' ∈ (addOne actor g now st u).members := hm'
            rw [hmem, hup] at hm2
            rcases List.mem_append.mp hm2 with hin | hin
            · have hfalse := hnone m' hin
              simp [hg', hu'] at hfalse
            · rcases List.mem_cons.mp hin with rfl | hin'
              · exact ⟨rfl, rfl, rfl, rfl, rfl⟩
              · have hfalse := List.countP_eq_zero.mp hz2 m' hin'
                simp [hg', hu'] at hfalse
        · simp [addMembers, hA, hr] at hsucc
  · -- create keeps pairs
    intro actor gid name mids now st' hsucc
    by_cases hname : name.trim = ""
    · simp [createGroup, hname] at hsucc
    · simp [createGroup, hname] at hsucc
      subst hsucc
      exact keepsPairs_append _ _
  · -- add keeps pairs
    intro actor g2 uids now st' hsucc
    cases hA : findActive st.members g2 actor with
    | none => simp [addMembers, hA] at hsucc
    | some a =>
        by_cases hr : a.role = Role.admin
        · simp [addMembers, hA, hr] at hsucc
          split at hsucc
          · cases hsucc
          · cases hsucc
            exact keepsPairs_foldl actor g2 now _ st
        · simp [addMembers, hA, hr] at hsucc
  · -- remove keeps pairs
    intro actor g2 target now st' hsucc
    cases hA : findActive st.members g2 actor with
    | none => simp [removeMember, hA] at hsucc
    | some a =>
        by_cases hr : a.role = Role.admin
        · by_cases hself : target = actor
          · simp [removeMember, hA, hr, hself] at hsucc
          · cases hT : findActive st.members g2 target with
            | none => simp [removeMember, hA, hr, hself, hT] at hsucc
            | some t =>
                simp [removeMember, hA, hr, hself, hT] at hsucc
                subst hsucc
                refine keepsPairs_updateFirst _ _ ?_ _
                intro m
                exact ⟨rfl, rfl⟩
        · simp [removeMember, hA, hr] at hsucc
  · -- promote keeps pairs
    intro actor g2 target now st' hsucc
    cases hA : findActive st.members g2 actor with
    | none => simp [promote, hA] at hsucc
    | some a =>
        by_cases hr : a.role = Role.admin
        · cases hT : findActive st.members g2 target with
          | none => simp [promote, hA, hr, hT] at hsucc
          | some t =>
              by_cases ht : t.role = Role.admin
              · simp [promote, hA, hr, hT, ht] at hsucc
              · simp [promote, hA, hr, hT, ht] at hsucc
                subst hsucc
                refine keepsPairs_updateFirst _ _ ?_ _
                intro m
                exact ⟨rfl, rfl⟩
        · simp [promote, hA, hr] at hsucc
  · -- demote keeps pairs
    intro actor g2 target now st' hsucc
    cases hA : findActive st.members g2 actor with
    | none => simp [demote, hA] at hsucc
    | some a =>
        by_cases hr : a.role = Role.admin
        · cases hT : findActive st.members g2 target with
          | none => simp [demote, hA, hr, hT] at hsucc
          | some t =>
              by_cases ht : t.role = Role.admin
              · by_cases hc : countActiveAdmins st.members g2 ≤ 1
                · simp [demote, hA, hr, hT, ht, hc] at hsucc
                · simp [demote, hA, hr, hT, ht, hc] at hsucc
                  subst hsucc
                  refine keepsPairs_updateFirst _ _ ?_ _
                  intro m
                  exact ⟨rfl, rfl⟩
              · simp [demote, hA, hr, hT, ht] at hsucc
        · simp [demote, hA, hr] at hsucc
  · -- leave keeps pairs
    intro actor g2 now st' hsucc
    cases hA : findActive st.members g2 actor with
    | none => simp [leave, hA] at hsucc
    | some membership =>
        by_cases hcond : membership.role = Role.admin ∧
            countActiveAdmins st.members g2 ≤ 1 ∧ countActive st.members g2 > 1
        · simp [leave, hA, hcond] at hsucc
        · simp [leave, hA, hcond] at hsucc
          subst hsucc
          refine keepsPairs_updateFirst _ _ ?_ _
          intro m
          exact ⟨rfl, rfl⟩

/-- Witness for `c7_membership_single_row`: after admin 9 re-adds the
removed user 5, exactly one row exists for the pair. -/
theorem c7_membership_single_row_witness :
    pairCount Gosty.Examples.c7StAfter.members 1 5 = 1 :=
  ((c7_membership_single_row Gosty.Examples.c7St 1 5).1 9 Gosty.Examples.c7RemovedRec 3
    Gosty.Examples.c7StAfter (by decide) (Or.inr rfl) (by decide) (by decide) rfl).1

end Groups

namespace Messages

/-- Auxiliary: an id-preserving in-place update commutes with the id
lookup. -/
theorem findById_updateById (db : List Msg) (i : Nat) (f : Msg → Msg)
    (hid : ∀ m, (f m).id = m.id) :
    findById (updateById db i f) i = (findById db i).map f := by
  induction db with
  | nil => rfl
  | cons a rest ih =>
      unfold findById updateById at ih ⊢
      rw [List.map_cons]
      by_cases h : a.id = i
      · have h1 : (a.id == i) = true := by simp [h]
        have h2 : ((f a).id == i) = true := by simp [hid a, h]
        rw [if_pos h1]
        simp only [List.find?_cons, h1, h2]
        rfl
      · have h1 : (a.id == i) = false := by simp [h]
        rw [if_neg (by simp [h1] : ¬((a.id == i) = true))]
        simp only [List.find?_cons, h1]
        exact ih

/-- C3 counterexample: the claim asserts that after a successful unsend
any subsequent edit request on the message is rejected; but on the
concrete store holding the unsent message the original sender's edit with
a complete payload is accepted (neither edit route ever checks
`isUnsent`). -/
theorem c3_counterexample :
    unsendDirect (fun _ => none) [Gosty.Examples.c3Msg] 1 1
      = RouteResult.ok ([Gosty.Examples.c3MsgUnsent], []) ∧
    Gosty.Examples.c3MsgUnsent.isUnsent = true ∧
    Gosty.Examples.c3MsgUnsent.encryptedContent = "" ∧
    editDirect (fun _ => none) [Gosty.Examples.c3MsgUnsent] 1 1 "ct2" "iv2" "kr2" "ks2" 5
      = RouteResult.ok ([Gosty.Examples.c3MsgEdited], []) := by
  refine ⟨by decide, rfl, rfl, by decide⟩

/-- C3 (amended): after a successful unsend (direct or group) the stored
payload field is the empty string and `isUnsent` is true, and a subsequent
edit request by any actor other than the original sender is rejected with
401; the original sender's own edit request, however, is not blocked by
the unsent state (the edit routes never check `isUnsent`). -/
theorem c3_unsend_clears_and_blocks_other_editors (sock : Nat → Option String) :
    (∀ db actor msgId db' evts,
        unsendDirect sock db actor msgId = RouteResult.ok (db', evts) →
        ∀ m', findById db' msgId = some m' →
          m'.encryptedContent = "" ∧ m'.isUnsent = true ∧ m'.senderId = actor ∧
          ∀ other e i r s now, other ≠ actor →
            editDirect sock db' other msgId e i r s now
              = RouteResult.err 401 "Not authorized") ∧
    (∀ st actor msgId st' evts,
        Groups.unsendGroup st actor msgId = RouteResult.ok (st', evts) →
        ∀ m', findById st'.msgs msgId = some m' →
          m'.content = "" ∧ m'.isUnsent = true ∧ m'.senderId = actor ∧
          ∀ other c now, other ≠ actor →
            Groups.editGroup st' other msgId c now
              = RouteResult.err 401 "Not authorized") := by
  constructor
  · intro db actor msgId db' evts hsucc m' hm'
    cases hF : findById db msgId with
    | none => simp [unsendDirect, hF] at hsucc
    | some m =>
        by_cases hct : m.conversationType = ConvType.direct
        · by_cases hs : m.senderId = actor
          · simp [unsendDirect, hF, hct, hs] at hsucc
            obtain ⟨hdb, -⟩ := hsucc
            subst hdb
            have hF' : findById (updateById db msgId
                (fun x => { x with isUnsent := true, encryptedContent := "" })) msgId
                = some ({ m with isUnsent := true, encryptedContent := "" }) := by
              rw [findById_updateById db msgId
                (fun x => { x with isUnsent := true, encryptedContent := "" })
                (fun x => rfl), hF]
              rfl
            rw [hF'] at hm'
            injection hm' with hm'
            subst hm'
            refine ⟨rfl, rfl, hs, ?_⟩
            intro other e i r s now hother
            simp [editDirect, hF', hct, hs, Ne.symm hother]
          · simp [unsendDirect, hF, hct, hs] at hsucc
        · simp [unsendDirect, hF, hct] at hsucc
  · intro st actor msgId st' evts hsucc m' hm'
    cases hF : findById st.msgs msgId with
    | none => simp [Groups.unsendGroup, hF] at hsucc
    | some m =>
        by_cases hct : m.conversationType = ConvType.group
        · by_cases hmt : m.messageType = MsgType.system
          · simp [Groups.unsendGroup, hF, hct, hmt] at hsucc
          · by_cases hs : m.senderId = actor
            · cases hM : m.groupId.bind (fun g => Groups.findActive st.members g actor) with
              | none => simp [Groups.unsendGroup, hF, hct, hmt, hs, hM] at hsucc
              | some mem =>
                  simp [Groups.unsendGroup, hF, hct, hmt, hs, hM] at hsucc
                  obtain ⟨hst, -⟩ := hsucc
                  subst hst
                  have hF' : findById (updateById st.msgs msgId
                      (fun x => { x with isUnsent := true, content := "" })) msgId
                      = some ({ m with isUnsent := true, content := "" }) := by
                    rw [findById_updateById st.msgs msgId
                      (fun x => { x with isUnsent := true, content := "" })
                      (fun x => rfl), hF]
                    rfl
                  have hm2 : findById (updateById st.msgs msgId
                      (fun x => { x with isUnsent := true, content := "" })) msgId
                      = some m' := hm'
                  rw [hF'] at hm2
                  injection hm2 with hm2
                  subst hm2
                  refine ⟨rfl, rfl, hs, ?_⟩
                  intro other c now hother
                  simp [Groups.editGroup, hF', hct, hmt, hs, Ne.symm hother]
            · simp [Groups.unsendGroup, hF, hct, hmt, hs] at hsucc
        · simp [Groups.unsendGroup, hF, hct] at hsucc

/-- Witness for `c3_unsend_clears_and_blocks_other_editors`: after sender
1's unsend, user 2's edit attempt on the unsent message is rejected with
401. -/
theorem c3_unsend_clears_and_blocks_other_editors_witness :
    editDirect (fun _ => none) [Gosty.Examples.c3MsgUnsent] 2 1 "x" "y" "z" "w" 9
      = RouteResult.err 401 "Not authorized" :=
  ((c3_unsend_clears_and_blocks_other_editors (fun _ => none)).1
    [Gosty.Examples.c3Msg] 1 1 [Gosty.Examples.c3MsgUnsent] [] (by decide)
    Gosty.Examples.c3MsgUnsent (by decide)).2.2.2 2 "x" "y" "z" "w" 9 (by decide)

/-- Auxiliary: adding the deleting viewer to a message's `deletedFor` set
does not change any other viewer's visibility filter. -/
theorem directVisible_addDeleted (viewer otherUser actor : Nat) (m : Msg)
    (hv : viewer ≠ actor) :
    directVisible viewer otherUser
      { m with deletedFor := if actor ∈ m.deletedFor then m.deletedFor
               else m.deletedFor ++ [actor] }
      = directVisible viewer otherUser m := by
  by_cases hdel : actor ∈ m.deletedFor
  · simp [directVisible, hdel]
  · simp [directVisible, hdel, List.mem_append, hv]

/-- C9: a successful delete-for-me emits no realtime event; it only adds
the deleting participant's id (at most once) to the target message's
`deletedFor` set, leaving every other stored field of every message
unchanged; and every message a different viewer could fetch before is
still returned (by id) by that viewer's conversation fetch afterwards. -/
theorem c9_delete_for_me_isolation (db : List Msg) (actor msgId : Nat)
    (db' : List Msg) (evts : List Evt)
    (h : deleteForMeDirect db actor msgId = RouteResult.ok (db', evts)) :
    evts = [] ∧
    (∀ m' ∈ db', ∃ m ∈ db,
        m'.id = m.id ∧ m'.conversationType = m.conversationType ∧
        m'.messageType = m.messageType ∧ m'.senderId = m.senderId ∧
        m'.receiverId = m.receiverId ∧ m'.groupId = m.groupId ∧
        m'.replyTo = m.replyTo ∧ m'.content = m.content ∧
        m'.systemAction = m.systemAction ∧
        m'.encryptedContent = m.encryptedContent ∧ m'.iv = m.iv ∧
        m'.encryptedKeyForReceiver = m.encryptedKeyForReceiver ∧
        m'.encryptedKeyForSender = m.encryptedKeyForSender ∧
        m'.isRead = m.isRead ∧ m'.isEdited = m.isEdited ∧ m'.editedAt = m.editedAt ∧
        m'.isUnsent = m.isUnsent ∧ m'.createdAt = m.createdAt ∧
        (if m.id = msgId ∧ actor ∉ m.deletedFor
         then m'.deletedFor = m.deletedFor ++ [actor]
         else m'.deletedFor = m.deletedFor)) ∧
    (∀ viewer otherUser m, viewer ≠ actor →
        m ∈ getDirectMessages db viewer otherUser →
        ∃ m' ∈ getDirectMessages db' viewer otherUser, m'.id = m.id) := by
  cases hF : findById db msgId with
  | none => simp [deleteForMeDirect, hF] at h
  | some m0 =>
      by_cases hct : m0.conversationType = ConvType.direct
      · by_cases hpart : m0.senderId ≠ actor ∧ m0.receiverId ≠ some actor
        · simp [deleteForMeDirect, hF, hct, hpart] at h
        · simp [deleteForMeDirect, hF, hct, hpart] at h
          obtain ⟨hdb, hev⟩ := h
          subst hdb
          refine ⟨hev, ?_, ?_⟩
          · intro m' hm'
            simp only [updateById, List.mem_map] at hm'
            obtain ⟨m, hmdb, rfl⟩ := hm'
            refine ⟨m, hmdb, ?_⟩
            by_cases hid : m.id = msgId
            · by_cases hdel : actor ∈ m.deletedFor
              · simp [hid, hdel]
              · simp [hid, hdel]
            · simp [hid]
          · intro viewer otherUser m hv hmem
            have hmem2 := (List.perm_insertionSort
              (fun a b : Msg => a.createdAt ≤ b.createdAt) _).mem_iff.mp hmem
            obtain ⟨hmdb, hpv⟩ := List.mem_filter.mp hmem2
            by_cases hid : m.id = msgId
            · refine ⟨{ m with deletedFor := if actor ∈ m.deletedFor then m.deletedFor
                        else m.deletedFor ++ [actor] }, ?_, rfl⟩
              apply (List.perm_insertionSort
                (fun a b : Msg => a.createdAt ≤ b.createdAt) _).mem_iff.mpr
              apply List.mem_filter.mpr
              constructor
              · simp only [updateById, List.mem_map]
                exact ⟨m, hmdb, by simp [hid]⟩
              · rw [directVisible_addDeleted viewer otherUser actor m hv]
                exact hpv
            · refine ⟨m, ?_, rfl⟩
              apply (List.perm_insertionSort
                (fun a b : Msg => a.createdAt ≤ b.createdAt) _).mem_iff.mpr
              apply List.mem_filter.mpr
              refine ⟨?_, hpv⟩
              simp only [updateById, List.mem_map]
              exact ⟨m, hmdb, by simp [hid]⟩
      · simp [deleteForMeDirect, hF, hct] at h

/-- Witness for `c9_delete_for_me_isolation`: after receiver 2 deletes the
message for themselves, sender 1's fetch of the conversation still returns
message 1. -/
theorem c9_delete_for_me_isolation_witness :
    ∃ m' ∈ getDirectMessages Gosty.Examples.c9Db 1 2, m'.id = 1 :=
  (c9_delete_for_me_isolation [Gosty.Examples.c9Msg] 2 1 Gosty.Examples.c9Db []
    (by decide)).2.2 1 2 Gosty.Examples.c9Msg (by decide) (by decide)

end Messages

end Gosty
